import Mathlib

/-!
# Verification of the CipherCanvas signature encoder and message store

Shallow embedding of the logic in `src/src/App.jsx` (the canonical variant):
the text-to-visual-signature encoder `encodeToVisuals`, the message store
operations `addMessage` / `handleSubmit` / `triggerResonance`.

Modelling conventions:
* A JS string is a `List Char`; `charCodeAt` is `Char.toNat` (UTF-16 code
  unit, which equals the code point for all characters in the basic
  multilingual plane — every text appearing in the claims is ASCII).
* A JS number is an `ℤ` for the integer-valued hash arithmetic (exact in an
  IEEE double as long as magnitudes stay below 2^53, which holds for all
  inputs considered here) and an `ℚ` for the stored rendering constants.
* `x << 5` follows the ECMAScript spec: both the operand and the result are
  coerced to signed 32-bit integers; the surrounding `+`/`-` are ordinary
  (unwrapped) number arithmetic, exactly as in the source.
* `uuidv4()` and `Math.random()` are environment-supplied inputs: the model
  takes the fresh id and the position as explicit parameters.
-/

namespace CipherCanvas

/-- ECMAScript ToInt32: reduce an integer to the signed 32-bit range
`[-2^31, 2^31)`, congruent mod `2^32`. -/
def toInt32 (z : ℤ) : ℤ := (z + 2 ^ 31) % 2 ^ 32 - 2 ^ 31

/-- JS `h << 5`: ToInt32 the operand, shift, wrap the result to int32. -/
def jsShl5 (h : ℤ) : ℤ := toInt32 (toInt32 h * 32)

/-- One iteration of the hash loop in `encodeToVisuals`
(`hash = text.charCodeAt(i) + ((hash << 5) - hash)`): only the shift is
32-bit; the subtraction and addition are unwrapped. -/
def hashStep (h : ℤ) (c : ℕ) : ℤ := (c : ℤ) + (jsShl5 h - h)

/-- The hash loop of `encodeToVisuals`, started from an arbitrary
accumulator. -/
def jsHashFrom (h : ℤ) (t : List Char) : ℤ :=
  t.foldl (fun h ch => hashStep h ch.toNat) h

/-- The hash computed by `encodeToVisuals` (`hash = 0` then the loop). -/
def jsHash (t : List Char) : ℤ := jsHashFrom 0 t

/-- One step of the recurrence as the spec words it: every intermediate
value truncated to a signed 32-bit integer. -/
def hashStep32 (h : ℤ) (c : ℕ) : ℤ := toInt32 ((c : ℤ) + (jsShl5 h - h))

/-- The fully 32-bit-truncated rolling hash the spec describes, from an
arbitrary accumulator. -/
def specHashFrom (h : ℤ) (t : List Char) : ℤ :=
  t.foldl (fun h ch => hashStep32 h ch.toNat) h

/-- The fully 32-bit-truncated rolling hash the spec describes. -/
def specHash (t : List Char) : ℤ := specHashFrom 0 t

/-- Does the first list occur as a prefix of the second? (helper for the
substring-containment reading of the classification regexes) -/
def listStartsWith : List Char → List Char → Bool
  | [], _ => true
  | _ :: _, [] => false
  | a :: as, b :: bs => a == b && listStartsWith as bs

/-- Does `needle` occur as a contiguous substring of `hay`?  A regex of the
form `/w1|w2|.../.test(s)` is containment of one of the fixed words. -/
def containsSub (needle : List Char) : List Char → Bool
  | [] => listStartsWith needle []
  | c :: rest => listStartsWith needle (c :: rest) || containsSub needle rest

/-- Does the lower-cased text contain any of the keywords? -/
def matchesAny (kws : List (List Char)) (t : List Char) : Bool :=
  kws.any (fun k => containsSub k t)

/-- JS `text.toLowerCase()`; ASCII-faithful per-character lowering. -/
def jsToLower (t : List Char) : List Char := t.map Char.toLower

/-- Keyword set of the anger regex `/angry|hate|bad|mad|fire|red|sharp|pain/`. -/
def angerKeywords : List (List Char) :=
  ["angry", "hate", "bad", "mad", "fire", "red", "sharp", "pain"].map String.toList

/-- Keyword set of the calm regex `/calm|peace|blue|water|cool|love|soft|smooth/`. -/
def calmKeywords : List (List Char) :=
  ["calm", "peace", "blue", "water", "cool", "love", "soft", "smooth"].map String.toList

/-- Keyword set of the secrecy regex `/secret|hidden|psst|code|mystery|unknown/`. -/
def secretKeywords : List (List Char) :=
  ["secret", "hidden", "psst", "code", "mystery", "unknown"].map String.toList

/-- Material parameters (`pattern` in the source). -/
structure Pattern where
  wireframe : Bool
  roughness : ℚ
  metalness : ℚ
deriving DecidableEq, Repr

/-- The visual signature returned by `encodeToVisuals`. -/
structure Signature where
  color : String
  distort : ℚ
  speed : ℚ
  hash : ℤ
  shape : String
  pattern : Pattern
deriving DecidableEq, Repr

/-- Fallback palette of the no-category branch. -/
def fallbackColors : List String := ["#f472b6", "#c084fc", "#fbbf24", "#60a5fa"]

/-- Fallback shape list of the no-category branch. -/
def fallbackShapes : List String := ["sphere", "octahedron", "dodecahedron", "tetrahedron"]

/-- The encoder `encodeToVisuals` of `src/src/App.jsx` (lines 71–100):
rolling hash, then first-match-wins classification anger → calm → secrecy,
else the hash-derived fallback.  The list indexings `colors[Math.abs(hash) %
colors.length]` are always in bounds, rendered with `getD`. -/
def encodeToVisuals (text : List Char) : Signature :=
  let hash := jsHash text
  let isAngry := matchesAny angerKeywords (jsToLower text)
  let isCalm := matchesAny calmKeywords (jsToLower text)
  let isSecret := matchesAny secretKeywords (jsToLower text)
  if isAngry then
    { color := "#ef4444", distort := 8/10, speed := 4, hash := hash,
      shape := "icosahedron",
      pattern := { wireframe := true, roughness := 1/10, metalness := 5/10 } }
  else if isCalm then
    { color := "#3b82f6", distort := 2/10, speed := 8/10, hash := hash,
      shape := "sphere",
      pattern := { wireframe := false, roughness := 0, metalness := 1/10 } }
  else if isSecret then
    { color := "#22c55e", distort := 6/10, speed := 2, hash := hash,
      shape := "torusKnot",
      pattern := { wireframe := true, roughness := 5/10, metalness := 9/10 } }
  else
    { color := fallbackColors.getD (hash.natAbs % fallbackColors.length) "",
      distort := 3/10, speed := 15/10, hash := hash,
      shape := fallbackShapes.getD (hash.natAbs % fallbackShapes.length) "",
      pattern := { wireframe := hash.natAbs % 3 == 0, roughness := 2/10, metalness := 8/10 } }

/-- A message in the store (`App`'s `messages` array entries).  `id` stands
for the `uuidv4()` value and `position` for the `Math.random()`-derived
placement; both are environment inputs and enter the model as parameters. -/
structure Message where
  id : ℕ
  text : List Char
  encoded : Signature
  position : ℚ × ℚ × ℚ
  resonating : Bool
  isNew : Bool
deriving DecidableEq, Repr

/-- `addMessage` (App.jsx lines 410–417): encode the text and append one new
message (`resonating: false`) at the end of the collection.  `id` and `pos`
are the environment-supplied `uuidv4()` and random-scatter values. -/
def addMessage (msgs : List Message) (text : List Char) (id : ℕ)
    (pos : ℚ × ℚ × ℚ) (isNew : Bool) : List Message :=
  msgs ++ [{ id := id, text := text, encoded := encodeToVisuals text,
             position := pos, resonating := false, isNew := isNew }]

/-- The ECMAScript WhiteSpace ∪ LineTerminator code points removed by
`String.prototype.trim`. -/
def jsWhitespaceCodes : List ℕ :=
  [0x9, 0xA, 0xB, 0xC, 0xD, 0x20, 0xA0, 0x1680,
   0x2000, 0x2001, 0x2002, 0x2003, 0x2004, 0x2005, 0x2006, 0x2007,
   0x2008, 0x2009, 0x200A, 0x2028, 0x2029, 0x202F, 0x205F, 0x3000, 0xFEFF]

/-- Is the character JS whitespace? -/
def isJsWhitespace (c : Char) : Bool := jsWhitespaceCodes.contains c.toNat

/-- JS `text.trim()`: strip whitespace from both ends. -/
def jsTrim (t : List Char) : List Char :=
  ((t.dropWhile isJsWhitespace).reverse.dropWhile isJsWhitespace).reverse

/-- `ComposeBar.handleSubmit` (lines 370–375) composed with the `onSend`
callback `addMessage` (default arguments `randomPos = false`,
`isNew = true`): `if (!text.trim()) return;` rejects blank input, otherwise
the text is appended.  (`!s` on a string is truthy exactly when `s` is
empty.) -/
def handleSubmit (msgs : List Message) (text : List Char) (id : ℕ)
    (pos : ℚ × ℚ × ℚ) : List Message :=
  if jsTrim text = [] then msgs else addMessage msgs text id pos true

/-- Update the `resonating` flag of every message carrying the id
(the `prev.map (msg => msg.id === id ? { ...msg, resonating: b } : msg)`
pattern of `triggerResonance`). -/
def setResonating (id : ℕ) (b : Bool) (msgs : List Message) : List Message :=
  msgs.map (fun m => if m.id == id then { m with resonating := b } else m)

/-- A deferred timer task: `setTimeout(run, delayMs)`.  The browser runs
`run` on the then-current state once `delayMs` ms have elapsed; the handle
returned by `setTimeout` makes the task cancelable. -/
structure TimerTask where
  delayMs : ℕ
  run : List Message → List Message

/-- `triggerResonance` (lines 419–424): set `resonating` for the id now and
schedule a 3000 ms timer that clears it. -/
def triggerResonance (id : ℕ) (msgs : List Message) :
    List Message × TimerTask :=
  (setResonating id true msgs, { delayMs := 3000, run := setResonating id false })

/-- A batch of submissions driven through `addMessage`: each entry is
(text, environment-supplied id, position, isNew). -/
def runAdds (init : List Message)
    (entries : List (List Char × ℕ × (ℚ × ℚ × ℚ) × Bool)) : List Message :=
  entries.foldl (fun ms e => addMessage ms e.1 e.2.1 e.2.2.1 e.2.2.2) init

/-- The message record that `addMessage` appends for a submission entry. -/
def mkMessage (e : List Char × ℕ × (ℚ × ℚ × ℚ) × Bool) : Message :=
  { id := e.2.1, text := e.1, encoded := encodeToVisuals e.1,
    position := e.2.2.1, resonating := false, isNew := e.2.2.2 }

/-- A concrete stored message, used to instantiate theorems. -/
def sampleMsg : Message :=
  { id := 0, text := "hi".toList, encoded := encodeToVisuals "hi".toList,
    position := (0, 0, 0), resonating := false, isNew := true }

/-- Two concrete submissions with distinct environment-supplied ids, used to
instantiate theorems. -/
def sampleEntries : List (List Char × ℕ × (ℚ × ℚ × ℚ) × Bool) :=
  [("a".toList, 1, (0, 0, 0), true), ("b".toList, 2, (0, 0, 0), true)]

/-- The store after two `addMessage` calls in which the environment's id
generator (`uuidv4()` in the source, which is random and is never checked
for freshness by the store) returned the same value twice. -/
def dupMsgs : List Message :=
  addMessage (addMessage [] "a".toList 7 (0, 0, 0) true) "b".toList 7 (0, 0, 0) true

/-! ## Arithmetic facts about the hash -/

/-- ToInt32 only changes a value by a multiple of `2^32`. -/
lemma toInt32_modeq (z : ℤ) : toInt32 z ≡ z [ZMOD (2 ^ 32)] := by
  have h1 : (z + 2 ^ 31) % 2 ^ 32 ≡ z + 2 ^ 31 [ZMOD (2 ^ 32)] :=
    Int.emod_emod_of_dvd _ dvd_rfl
  calc toInt32 z = (z + 2 ^ 31) % 2 ^ 32 - 2 ^ 31 := rfl
    _ ≡ z + 2 ^ 31 - 2 ^ 31 [ZMOD (2 ^ 32)] := h1.sub_right _
    _ = z := by ring

/-- ToInt32 lands at or above `-2^31`. -/
lemma toInt32_lb (z : ℤ) : -2 ^ 31 ≤ toInt32 z := by
  unfold toInt32
  omega

/-- ToInt32 lands below `2^31`. -/
lemma toInt32_ub (z : ℤ) : toInt32 z < 2 ^ 31 := by
  unfold toInt32
  omega

/-- The code's loop step and the fully-truncated step agree mod `2^32`
whenever their accumulators do. -/
lemma hashStep_modeq {h h' : ℤ} (c : ℕ) (hm : h ≡ h' [ZMOD (2 ^ 32)]) :
    hashStep h c ≡ hashStep32 h' c [ZMOD (2 ^ 32)] := by
  have s1 : jsShl5 h ≡ 32 * h' [ZMOD (2 ^ 32)] := by
    calc jsShl5 h ≡ toInt32 h * 32 [ZMOD (2 ^ 32)] := toInt32_modeq _
      _ ≡ h * 32 [ZMOD (2 ^ 32)] := (toInt32_modeq h).mul_right 32
      _ = 32 * h := by ring
      _ ≡ 32 * h' [ZMOD (2 ^ 32)] := hm.mul_left 32
  have s2 : jsShl5 h' ≡ 32 * h' [ZMOD (2 ^ 32)] := by
    calc jsShl5 h' ≡ toInt32 h' * 32 [ZMOD (2 ^ 32)] := toInt32_modeq _
      _ ≡ h' * 32 [ZMOD (2 ^ 32)] := (toInt32_modeq h').mul_right 32
      _ = 32 * h' := by ring
  have e1 : hashStep h c ≡ (c : ℤ) + (32 * h' - h') [ZMOD (2 ^ 32)] :=
    (s1.sub hm).add_left _
  have e2 : hashStep32 h' c ≡ (c : ℤ) + (32 * h' - h') [ZMOD (2 ^ 32)] := by
    calc hashStep32 h' c
        ≡ (c : ℤ) + (jsShl5 h' - h') [ZMOD (2 ^ 32)] := toInt32_modeq _
      _ ≡ (c : ℤ) + (32 * h' - h') [ZMOD (2 ^ 32)] := (s2.sub Int.ModEq.rfl).add_left _
  exact e1.trans e2.symm

/-- The code's hash loop agrees mod `2^32` with the fully-truncated one. -/
lemma jsHashFrom_modeq :
    ∀ (t : List Char) {h h' : ℤ}, h ≡ h' [ZMOD (2 ^ 32)] →
      jsHashFrom h t ≡ specHashFrom h' t [ZMOD (2 ^ 32)]
  | [], _, _, hm => hm
  | c :: t, _, _, hm => jsHashFrom_modeq t (hashStep_modeq c.toNat hm)

/-- The fully-truncated hash stays in the signed 32-bit range. -/
lemma specHashFrom_range :
    ∀ (t : List Char) {h : ℤ}, -2 ^ 31 ≤ h → h < 2 ^ 31 →
      -2 ^ 31 ≤ specHashFrom h t ∧ specHashFrom h t < 2 ^ 31
  | [], _, hl, hu => ⟨hl, hu⟩
  | _ :: t, _, _, _ => specHashFrom_range t (toInt32_lb _) (toInt32_ub _)

/-- Every branch of the encoder stores the loop's hash unchanged. -/
lemma encode_hash (t : List Char) : (encodeToVisuals t).hash = jsHash t := by
  simp only [encodeToVisuals]
  split
  · rfl
  · split
    · rfl
    · split <;> rfl

/-! ## Facts about the classification branches -/

/-- Containment of one listed keyword makes its whole regex match. -/
lemma matchesAny_of_contains {k : List Char} {kws : List (List Char)} {l : List Char}
    (hk : k ∈ kws) (hc : containsSub k l = true) : matchesAny kws l = true :=
  List.any_eq_true.mpr ⟨k, hk, hc⟩

/-- The anger branch of the encoder, unconditionally on the other sets. -/
lemma encode_angry {t : List Char}
    (hA : matchesAny angerKeywords (jsToLower t) = true) :
    encodeToVisuals t =
      { color := "#ef4444", distort := 8/10, speed := 4, hash := jsHash t,
        shape := "icosahedron",
        pattern := { wireframe := true, roughness := 1/10, metalness := 5/10 } } := by
  simp only [encodeToVisuals, hA, if_true]

/-- The calm branch of the encoder. -/
lemma encode_calm {t : List Char}
    (hA : matchesAny angerKeywords (jsToLower t) = false)
    (hC : matchesAny calmKeywords (jsToLower t) = true) :
    encodeToVisuals t =
      { color := "#3b82f6", distort := 2/10, speed := 8/10, hash := jsHash t,
        shape := "sphere",
        pattern := { wireframe := false, roughness := 0, metalness := 1/10 } } := by
  simp only [encodeToVisuals, hA, hC, if_true, if_false, Bool.false_eq_true]

/-- The fallback branch of the encoder. -/
lemma encode_fallback {t : List Char}
    (hA : matchesAny angerKeywords (jsToLower t) = false)
    (hC : matchesAny calmKeywords (jsToLower t) = false)
    (hS : matchesAny secretKeywords (jsToLower t) = false) :
    encodeToVisuals t =
      { color := fallbackColors.getD ((jsHash t).natAbs % fallbackColors.length) "",
        distort := 3/10, speed := 15/10, hash := jsHash t,
        shape := fallbackShapes.getD ((jsHash t).natAbs % fallbackShapes.length) "",
        pattern := { wireframe := (jsHash t).natAbs % 3 == 0,
                     roughness := 2/10, metalness := 8/10 } } := by
  simp only [encodeToVisuals, hA, hC, hS, if_false, Bool.false_eq_true]

set_option maxRecDepth 40000

/-- The fallback lists, indexed at the same position mod 4, only form the
four aligned pairs. -/
lemma fallback_pair_mem (k : ℕ) :
    (fallbackColors.getD (k % 4) "", fallbackShapes.getD (k % 4) "") ∈
      [("#f472b6", "sphere"), ("#c084fc", "octahedron"),
       ("#fbbf24", "dodecahedron"), ("#60a5fa", "tetrahedron")] := by
  rcases (by omega : k % 4 = 0 ∨ k % 4 = 1 ∨ k % 4 = 2 ∨ k % 4 = 3) with h | h | h | h <;>
    rw [h] <;> decide

/-! ## Facts about trimming and the store -/

/-- JS `trim` empties a string exactly when every character is whitespace. -/
lemma jsTrim_eq_nil_iff (t : List Char) :
    jsTrim t = [] ↔ t.all isJsWhitespace = true := by
  unfold jsTrim
  rw [List.reverse_eq_nil_iff]
  constructor
  · intro h
    rw [List.dropWhile_eq_nil_iff] at h
    rw [List.all_eq_true]
    intro x hx
    rw [← List.takeWhile_append_dropWhile (p := isJsWhitespace) (l := t)] at hx
    rcases List.mem_append.mp hx with h1 | h2
    · exact List.mem_takeWhile_imp h1
    · exact h x (List.mem_reverse.mpr h2)
  · intro h
    have h0 : t.dropWhile isJsWhitespace = [] :=
      List.dropWhile_eq_nil_iff.mpr (fun x hx => List.all_eq_true.mp h x hx)
    simp [h0]

/-- After `setResonating id b`, every stored message carrying the id has
flag `b`. -/
lemma setResonating_flag {id : ℕ} {b : Bool} {msgs : List Message} :
    ∀ m ∈ setResonating id b msgs, m.id = id → m.resonating = b := by
  intro m hm hid
  unfold setResonating at hm
  rcases List.mem_map.mp hm with ⟨a, ha, hEq⟩
  subst hEq
  by_cases hb : a.id = id
  · simp [hb]
  · have hbeq : (a.id == id) = false := beq_eq_false_iff_ne.mpr hb
    simp only [hbeq, Bool.false_eq_true, if_false] at hid
    exact absurd hid hb

/-- If some stored message carries the id, `setResonating id b` yields a
stored message with that id and flag `b`. -/
lemma setResonating_exists {id : ℕ} {msgs : List Message} (b : Bool)
    (h : ∃ m ∈ msgs, m.id = id) :
    ∃ m ∈ setResonating id b msgs, m.id = id ∧ m.resonating = b := by
  obtain ⟨m₀, hm₀, hid⟩ := h
  refine ⟨{ m₀ with resonating := b }, ?_, hid, rfl⟩
  unfold setResonating
  exact List.mem_map.mpr ⟨m₀, hm₀, by simp [hid]⟩

/-- Batches of `addMessage` calls append their messages in order. -/
lemma runAdds_eq :
    ∀ (entries : List (List Char × ℕ × (ℚ × ℚ × ℚ) × Bool)) (init : List Message),
      runAdds init entries = init ++ entries.map mkMessage
  | [], init => by simp [runAdds]
  | e :: es, init => by
      have ih := runAdds_eq es (init ++ [mkMessage e])
      unfold runAdds at ih ⊢
      simp only [List.foldl_cons] at ih ⊢
      rw [show addMessage init e.1 e.2.1 e.2.2.1 e.2.2.2 = init ++ [mkMessage e] from rfl]
      rw [ih]
      simp

/-! ## Claim theorems -/

/-- C1: the encoder is a pure, total, deterministic function of its input
text.  In the embedding `encodeToVisuals` takes no state, clock, or
randomness argument — its JS source reads none — so two calls on equal
texts return the same Signature, field by field (color, distort, speed,
hash, shape, pattern). -/
theorem encode_deterministic (t₁ t₂ : List Char) (h : t₁ = t₂) :
    encodeToVisuals t₁ = encodeToVisuals t₂ ∧
    (encodeToVisuals t₁).color = (encodeToVisuals t₂).color ∧
    (encodeToVisuals t₁).distort = (encodeToVisuals t₂).distort ∧
    (encodeToVisuals t₁).speed = (encodeToVisuals t₂).speed ∧
    (encodeToVisuals t₁).hash = (encodeToVisuals t₂).hash ∧
    (encodeToVisuals t₁).shape = (encodeToVisuals t₂).shape ∧
    (encodeToVisuals t₁).pattern = (encodeToVisuals t₂).pattern := by
  subst h
  exact ⟨rfl, rfl, rfl, rfl, rfl, rfl, rfl⟩

/-- C1 witness: two calls of the encoder on the text "hi" agree. -/
theorem encode_deterministic_witness :
    "hi".toList = "hi".toList ∧
    (encodeToVisuals "hi".toList = encodeToVisuals "hi".toList ∧
     (encodeToVisuals "hi".toList).color = (encodeToVisuals "hi".toList).color ∧
     (encodeToVisuals "hi".toList).distort = (encodeToVisuals "hi".toList).distort ∧
     (encodeToVisuals "hi".toList).speed = (encodeToVisuals "hi".toList).speed ∧
     (encodeToVisuals "hi".toList).hash = (encodeToVisuals "hi".toList).hash ∧
     (encodeToVisuals "hi".toList).shape = (encodeToVisuals "hi".toList).shape ∧
     (encodeToVisuals "hi".toList).pattern = (encodeToVisuals "hi".toList).pattern) :=
  ⟨rfl, encode_deterministic "hi".toList "hi".toList rfl⟩

/-- C2 (amended): for every text the hash field of `encodeToVisuals` is the
recurrence in which only the `<< 5` operation is 32-bit (the loop has no
`hash |= 0`); it is congruent mod `2^32` to the fully-truncated rolling hash
the claim describes, and that truncated hash always lies in the signed
32-bit range — but the returned hash itself need not (see the
counterexample). -/
theorem hash_congruent_mod32 (t : List Char) :
    (encodeToVisuals t).hash = jsHash t ∧
    jsHash t ≡ specHash t [ZMOD (2 ^ 32)] ∧
    -2 ^ 31 ≤ specHash t ∧ specHash t < 2 ^ 31 := by
  refine ⟨encode_hash t, jsHashFrom_modeq t Int.ModEq.rfl, ?_, ?_⟩
  · exact (specHashFrom_range t (by norm_num) (by norm_num)).1
  · exact (specHashFrom_range t (by norm_num) (by norm_num)).2

/-- C2 counterexample: on the 7-character ASCII text "szycidp" the code's
hash is `2591264100 ≥ 2^31`, outside the signed 32-bit range, and differs
from the fully-truncated recurrence (which gives `-1703703196`): the
intermediate values of the loop are not truncated to 32 bits. -/
theorem hash_not_int32_counterexample :
    (encodeToVisuals "szycidp".toList).hash = 2591264100 ∧
    specHash "szycidp".toList = -1703703196 ∧
    (encodeToVisuals "szycidp".toList).hash ≠ specHash "szycidp".toList ∧
    ¬ ((encodeToVisuals "szycidp".toList).hash < 2 ^ 31) := by
  refine ⟨by decide, by decide, by decide, by decide⟩

/-- C3: classification is first-match-wins with anger first — any text whose
lower-casing contains an anger keyword gets the fixed anger tuple
(color `#ef4444`, shape `icosahedron`, distort `0.8`, speed `4`,
pattern `{wireframe: true, roughness: 0.1, metalness: 0.5}`), regardless of
calm or secrecy keywords also present. -/
theorem anger_first_match {t : List Char}
    (hA : matchesAny angerKeywords (jsToLower t) = true) :
    encodeToVisuals t =
      { color := "#ef4444", distort := 8/10, speed := 4, hash := jsHash t,
        shape := "icosahedron",
        pattern := { wireframe := true, roughness := 1/10, metalness := 5/10 } } :=
  encode_angry hA

/-- C3 witness: "ANGRY calm secret" contains keywords of all three sets and
still encodes to the anger tuple. -/
theorem anger_first_match_witness :
    matchesAny angerKeywords (jsToLower "ANGRY calm secret".toList) = true ∧
    containsSub "calm".toList (jsToLower "ANGRY calm secret".toList) = true ∧
    containsSub "secret".toList (jsToLower "ANGRY calm secret".toList) = true ∧
    encodeToVisuals "ANGRY calm secret".toList =
      { color := "#ef4444", distort := 8/10, speed := 4,
        hash := jsHash "ANGRY calm secret".toList, shape := "icosahedron",
        pattern := { wireframe := true, roughness := 1/10, metalness := 5/10 } } :=
  ⟨by decide, by decide, by decide, anger_first_match (by decide)⟩

/-- C4 counterexample: "bad calm" contains "calm" but also the anger keyword
"bad", and the anger branch wins: the encoder returns color `#ef4444`, not
`#3b82f6`, shape not `sphere`, distort not `0.2`. -/
theorem calm_counterexample :
    containsSub "calm".toList (jsToLower "bad calm".toList) = true ∧
    (encodeToVisuals "bad calm".toList).color = "#ef4444" ∧
    (encodeToVisuals "bad calm".toList).color ≠ "#3b82f6" ∧
    (encodeToVisuals "bad calm".toList).shape ≠ "sphere" ∧
    (encodeToVisuals "bad calm".toList).distort ≠ 2/10 := by
  have h := encode_angry (t := "bad calm".toList) (by decide)
  refine ⟨by decide, ?_, ?_, ?_, ?_⟩
  · rw [h]
  · rw [h]; decide
  · rw [h]; decide
  · rw [h]
    show (8/10 : ℚ) ≠ 2/10
    norm_num

/-- C4 (amended): for every text containing "calm" (case-insensitive) whose
lower-casing contains no anger-set keyword, the encoder returns color
`#3b82f6`, shape `sphere`, distort `0.2`. -/
theorem calm_tuple {t : List Char}
    (hcalm : containsSub "calm".toList (jsToLower t) = true)
    (hA : matchesAny angerKeywords (jsToLower t) = false) :
    (encodeToVisuals t).color = "#3b82f6" ∧
    (encodeToVisuals t).shape = "sphere" ∧
    (encodeToVisuals t).distort = 2/10 := by
  have hC : matchesAny calmKeywords (jsToLower t) = true :=
    matchesAny_of_contains (by decide) hcalm
  rw [encode_calm hA hC]
  exact ⟨rfl, rfl, rfl⟩

/-- C4 witness: "Calm seas" contains "calm" case-insensitively, no anger
keyword, and encodes to the calm tuple. -/
theorem calm_tuple_witness :
    containsSub "calm".toList (jsToLower "Calm seas".toList) = true ∧
    matchesAny angerKeywords (jsToLower "Calm seas".toList) = false ∧
    ((encodeToVisuals "Calm seas".toList).color = "#3b82f6" ∧
     (encodeToVisuals "Calm seas".toList).shape = "sphere" ∧
     (encodeToVisuals "Calm seas".toList).distort = 2/10) :=
  ⟨by decide, by decide, calm_tuple (by decide) (by decide)⟩

/-- C5: when no keyword set matches, the color is
`colors[abs(hash) mod 4]` of the fixed palette, the shape is
`shapes[abs(hash) mod 4]` of the fixed list, and the wireframe flag is
`abs(hash) mod 3 == 0` — all functions of the hash alone. -/
theorem fallback_from_hash {t : List Char}
    (hA : matchesAny angerKeywords (jsToLower t) = false)
    (hC : matchesAny calmKeywords (jsToLower t) = false)
    (hS : matchesAny secretKeywords (jsToLower t) = false) :
    (encodeToVisuals t).color =
      ["#f472b6", "#c084fc", "#fbbf24", "#60a5fa"].getD ((jsHash t).natAbs % 4) "" ∧
    (encodeToVisuals t).shape =
      ["sphere", "octahedron", "dodecahedron", "tetrahedron"].getD
        ((jsHash t).natAbs % 4) "" ∧
    (encodeToVisuals t).pattern.wireframe = ((jsHash t).natAbs % 3 == 0) := by
  rw [encode_fallback hA hC hS]
  exact ⟨rfl, rfl, rfl⟩

/-- C5 witness: "xyz" matches no keyword set; its color, shape and wireframe
flag come from `abs(hash)` as stated. -/
theorem fallback_from_hash_witness :
    matchesAny angerKeywords (jsToLower "xyz".toList) = false ∧
    matchesAny calmKeywords (jsToLower "xyz".toList) = false ∧
    matchesAny secretKeywords (jsToLower "xyz".toList) = false ∧
    ((encodeToVisuals "xyz".toList).color =
       ["#f472b6", "#c084fc", "#fbbf24", "#60a5fa"].getD
         ((jsHash "xyz".toList).natAbs % 4) "" ∧
     (encodeToVisuals "xyz".toList).shape =
       ["sphere", "octahedron", "dodecahedron", "tetrahedron"].getD
         ((jsHash "xyz".toList).natAbs % 4) "" ∧
     (encodeToVisuals "xyz".toList).pattern.wireframe =
       ((jsHash "xyz".toList).natAbs % 3 == 0)) :=
  ⟨by decide, by decide, by decide,
    fallback_from_hash (by decide) (by decide) (by decide)⟩

/-- C6: the empty string encodes without error: hash `0`, no keyword
category matches, and the result comes from the fallback branch —
color `#f472b6` and shape `sphere` (the index-0 entries), both members of
the fallback lists. -/
theorem empty_string_signature :
    (encodeToVisuals []).hash = 0 ∧
    matchesAny angerKeywords (jsToLower []) = false ∧
    matchesAny calmKeywords (jsToLower []) = false ∧
    matchesAny secretKeywords (jsToLower []) = false ∧
    (encodeToVisuals []).color = "#f472b6" ∧
    (encodeToVisuals []).shape = "sphere" ∧
    (encodeToVisuals []).pattern.wireframe = true ∧
    (encodeToVisuals []).color ∈ fallbackColors ∧
    (encodeToVisuals []).shape ∈ fallbackShapes := by
  refine ⟨by decide, by decide, by decide, by decide, by decide, by decide, by decide,
    by decide, by decide⟩

/-- C7: submitting a blank (all-whitespace, so trim-empty) text leaves the
message collection unchanged; any other text appends exactly one new message
at the end. -/
theorem submit_blank_noop (msgs : List Message) (text : List Char) (id : ℕ)
    (pos : ℚ × ℚ × ℚ) :
    (text.all isJsWhitespace = true → handleSubmit msgs text id pos = msgs) ∧
    (text.all isJsWhitespace = false →
      handleSubmit msgs text id pos =
        msgs ++ [{ id := id, text := text, encoded := encodeToVisuals text,
                   position := pos, resonating := false, isNew := true }]) := by
  constructor
  · intro h
    unfold handleSubmit
    rw [if_pos ((jsTrim_eq_nil_iff text).mpr h)]
  · intro h
    have hne : ¬ jsTrim text = [] := fun hnil => by
      have hall := (jsTrim_eq_nil_iff text).mp hnil
      rw [hall] at h
      cases h
    unfold handleSubmit
    rw [if_neg hne]
    rfl

/-- C7 witness: submitting three spaces is a no-op on the empty store, and
submitting "hi" appends exactly one message. -/
theorem submit_blank_noop_witness :
    ("   ".toList.all isJsWhitespace = true ∧
      handleSubmit [] "   ".toList 0 (0, 0, 0) = []) ∧
    ("hi".toList.all isJsWhitespace = false ∧
      handleSubmit [] "hi".toList 1 (0, 0, 0) =
        [] ++ [{ id := 1, text := "hi".toList, encoded := encodeToVisuals "hi".toList,
                 position := (0, 0, 0), resonating := false, isNew := true }]) :=
  ⟨⟨by decide, (submit_blank_noop [] "   ".toList 0 (0, 0, 0)).1 (by decide)⟩,
   ⟨by decide, (submit_blank_noop [] "hi".toList 1 (0, 0, 0)).2 (by decide)⟩⟩

/-- C8: for an id present in the store, `triggerResonance` immediately sets
the resonating flag of every message with that id (and such a message
exists), and schedules a deferred 3000 ms timer — not a blocking wait —
whose firing clears the flag even though the caller never clears it. -/
theorem triggerResonance_spec (msgs : List Message) (id : ℕ)
    (h : ∃ m ∈ msgs, m.id = id) :
    (∃ m ∈ (triggerResonance id msgs).1, m.id = id ∧ m.resonating = true) ∧
    (∀ m ∈ (triggerResonance id msgs).1, m.id = id → m.resonating = true) ∧
    (triggerResonance id msgs).2.delayMs = 3000 ∧
    (∀ later, ∀ m ∈ (triggerResonance id msgs).2.run later,
      m.id = id → m.resonating = false) := by
  refine ⟨setResonating_exists true h, ?_, rfl, ?_⟩
  · exact setResonating_flag
  · intro later
    exact setResonating_flag

/-- C8 witness: triggering resonance on the singleton store holding
`sampleMsg` (id 0). -/
theorem triggerResonance_spec_witness :
    (∃ m ∈ [sampleMsg], m.id = 0) ∧
    ((∃ m ∈ (triggerResonance 0 [sampleMsg]).1, m.id = 0 ∧ m.resonating = true) ∧
     (∀ m ∈ (triggerResonance 0 [sampleMsg]).1, m.id = 0 → m.resonating = true) ∧
     (triggerResonance 0 [sampleMsg]).2.delayMs = 3000 ∧
     (∀ later, ∀ m ∈ (triggerResonance 0 [sampleMsg]).2.run later,
       m.id = 0 → m.resonating = false)) :=
  ⟨⟨sampleMsg, List.mem_singleton.mpr rfl, rfl⟩,
   triggerResonance_spec [sampleMsg] 0 ⟨sampleMsg, List.mem_singleton.mpr rfl, rfl⟩⟩

/-- C9 counterexample: the store performs no id-uniqueness check — ids come
from the random `uuidv4()` environment, and if the generator returns the
same value twice (possible, if astronomically unlikely, for version-4
UUIDs) the two stored messages share an id. -/
theorem duplicate_id_counterexample :
    dupMsgs.map Message.id = [7, 7] ∧
    ¬ (dupMsgs.map Message.id).Nodup ∧
    dupMsgs.length = 2 := by
  refine ⟨by decide, by decide, by decide⟩

/-- C9 (amended): the collection is append-only in insertion order — after
any batch of submissions it is the initial store followed by the submitted
messages in submission order, the i-th stored message carrying the i-th
generated id — and message ids are pairwise distinct provided the id
generator never repeats (which `uuidv4()` guarantees only with overwhelming
probability, not with certainty). -/
theorem message_store_order (init : List Message)
    (entries : List (List Char × ℕ × (ℚ × ℚ × ℚ) × Bool)) :
    runAdds init entries = init ++ entries.map mkMessage ∧
    (runAdds init entries).map Message.id =
      init.map Message.id ++ entries.map (fun e => e.2.1) ∧
    ((init.map Message.id ++ entries.map (fun e => e.2.1)).Nodup →
      ((runAdds init entries).map Message.id).Nodup) := by
  have h := runAdds_eq entries init
  have hmap : (runAdds init entries).map Message.id =
      init.map Message.id ++ entries.map (fun e => e.2.1) := by
    rw [h, List.map_append, List.map_map]
    rfl
  exact ⟨h, hmap, fun hnd => by rw [hmap]; exact hnd⟩

/-- C9 witness: two submissions with distinct generated ids land in order
with distinct ids. -/
theorem message_store_order_witness :
    (runAdds [] sampleEntries = [] ++ sampleEntries.map mkMessage ∧
     (runAdds [] sampleEntries).map Message.id =
       List.map Message.id [] ++ sampleEntries.map (fun e => e.2.1)) ∧
    (List.map Message.id [] ++ sampleEntries.map (fun e => e.2.1)).Nodup ∧
    ((runAdds [] sampleEntries).map Message.id).Nodup :=
  ⟨⟨(message_store_order [] sampleEntries).1,
    (message_store_order [] sampleEntries).2.1⟩,
   by decide,
   (message_store_order [] sampleEntries).2.2 (by decide)⟩

/-- C10: both fallback lists have length 4 and are indexed by the same
`abs(hash) mod 4`, so in the fallback branch the (color, shape) pair is
always one of exactly four aligned combinations. -/
theorem fallback_color_shape_paired {t : List Char}
    (hA : matchesAny angerKeywords (jsToLower t) = false)
    (hC : matchesAny calmKeywords (jsToLower t) = false)
    (hS : matchesAny secretKeywords (jsToLower t) = false) :
    ((encodeToVisuals t).color, (encodeToVisuals t).shape) ∈
      [("#f472b6", "sphere"), ("#c084fc", "octahedron"),
       ("#fbbf24", "dodecahedron"), ("#60a5fa", "tetrahedron")] := by
  rw [encode_fallback hA hC hS]
  exact fallback_pair_mem (jsHash t).natAbs

/-- C10 witness: "xyzw" matches no keyword set and its (color, shape) pair
is one of the four aligned combinations. -/
theorem fallback_color_shape_paired_witness :
    matchesAny angerKeywords (jsToLower "xyzw".toList) = false ∧
    matchesAny calmKeywords (jsToLower "xyzw".toList) = false ∧
    matchesAny secretKeywords (jsToLower "xyzw".toList) = false ∧
    ((encodeToVisuals "xyzw".toList).color, (encodeToVisuals "xyzw".toList).shape) ∈
      [("#f472b6", "sphere"), ("#c084fc", "octahedron"),
       ("#fbbf24", "dodecahedron"), ("#60a5fa", "tetrahedron")] :=
  ⟨by decide, by decide, by decide,
    fallback_color_shape_paired (by decide) (by decide) (by decide)⟩

end CipherCanvas

